import Mathlib

/-!
Shallow embedding of `src/ETL/raw_to_tfrecord.py`.

External collaborators (S3 download/upload, PIL image decoding + JPEG
re-encoding, TensorFlow record serialization) are abstracted:
an archive is a list of entries carrying a filename and an abstract payload
(viewed as text lines when read as the label resource), image
decoding+re-encoding is an injected function that may fail (raising in
Python becomes returning `none`), and the serialized record is kept as a
structure whose fields are the five lists plus the image bytes handle.
Python strings are modelled as Lean `String`, with the Python
`str.split()/strip()/endswith/split('/')` operations re-implemented over
character lists so that they compute by structural recursion.
-/

namespace RawToTFRecord

/-- Whitespace characters recognized by Python `str.split()` / `str.strip()`. -/
def isPySpace (c : Char) : Bool :=
  c = ' ' || c = '\t' || c = '\n' || c = '\r' || c = '\x0b' || c = '\x0c'

/-- Helper for `pySplit`: walk the characters, accumulating the current token. -/
def splitAux : List Char → List Char → List String
  | [], acc => if acc.isEmpty then [] else [String.mk acc.reverse]
  | c :: cs, acc =>
    if isPySpace c then
      if acc.isEmpty then splitAux cs [] else String.mk acc.reverse :: splitAux cs []
    else splitAux cs (c :: acc)

/-- Python `str.split()` with no argument: split on runs of whitespace,
producing no empty tokens. -/
def pySplit (s : String) : List String :=
  splitAux s.data []

/-- Python `str.strip()`: drop leading and trailing whitespace. -/
def pyStrip (s : String) : String :=
  String.mk (((s.data.dropWhile isPySpace).reverse.dropWhile isPySpace).reverse)

/-- Numeric value of a decimal digit character. -/
def charVal (c : Char) : Nat := c.toNat - 48

/-- Value of a list of decimal digit characters read left to right. -/
def digitsVal (cs : List Char) : Nat :=
  cs.foldl (fun a c => a * 10 + charVal c) 0

/-- Unsigned part of Python `float()` on the decimal subset actually used by
the label format: digits with an optional single point, at least one digit. -/
def parseUFloat (cs : List Char) : Option Rat :=
  let ip := cs.takeWhile Char.isDigit
  let rest := cs.dropWhile Char.isDigit
  match rest with
  | [] => if ip.isEmpty then none else some (digitsVal ip : Rat)
  | '.' :: frac =>
    if frac.all Char.isDigit && (!ip.isEmpty || !frac.isEmpty) then
      some ((digitsVal ip : Rat) + (digitsVal frac : Rat) / ((10 : Rat) ^ frac.length))
    else none
  | _ => none

/-- Python `float(token)` (decimal subset), `none` standing for a raised
`ValueError`. Values are exact rationals standing for the parsed number. -/
def pyFloat (s : String) : Option Rat :=
  match s.data with
  | '+' :: r => parseUFloat r
  | '-' :: r => (parseUFloat r).map Neg.neg
  | r => parseUFloat r

/-- Python `int(token)`: optional sign followed by at least one digit,
`none` standing for a raised `ValueError`. -/
def pyInt (s : String) : Option Int :=
  match s.data with
  | '+' :: r => if !r.isEmpty && r.all Char.isDigit then some (digitsVal r : Int) else none
  | '-' :: r => if !r.isEmpty && r.all Char.isDigit then some (-(digitsVal r : Int)) else none
  | r => if !r.isEmpty && r.all Char.isDigit then some (digitsVal r : Int) else none

/-- Bounding box dictionary built at lines 80-86 of the source. -/
structure BBox where
  xmin : Rat
  ymin : Rat
  xmax : Rat
  ymax : Rat
  label : Int
deriving DecidableEq

/-- Outcome of handling one label line of the loop at lines 74-86:
either the line is silently skipped (token count other than 6), or it
yields a box keyed by the raw image-name token, or a numeric conversion
raises `ValueError` (which escapes to the top-level handler). -/
inductive LineResult where
  | skipped
  | box (name : String) (b : BBox)
  | err
deriving DecidableEq

/-- Lines 75-86 of the source: split the stripped line on whitespace; if it
has exactly 6 tokens, convert and build the box dictionary entry with
xmax = x + width and ymax = y + height; any other token count is skipped. -/
def parseLine (line : String) : LineResult :=
  let parts := pySplit (pyStrip line)
  if h : parts.length = 6 then
    let imageName := parts.get ⟨0, by omega⟩
    let classId := parts.get ⟨1, by omega⟩
    let x := parts.get ⟨2, by omega⟩
    let y := parts.get ⟨3, by omega⟩
    let w := parts.get ⟨4, by omega⟩
    let ht := parts.get ⟨5, by omega⟩
    match pyFloat x, pyFloat y, pyFloat w, pyFloat ht, pyInt classId with
    | some qx, some qy, some qw, some qh, some c =>
      .box imageName ⟨qx, qy, qx + qw, qy + qh, c⟩
    | _, _, _, _, _ => .err
  else
    .skipped

/-- The `bboxes` dictionary: insertion-ordered map from the raw image-name
token to the ordered list of its boxes. -/
abbrev AnnIndex := List (String × List BBox)

/-- Lines 78-86: `bboxes.setdefault`-style append of one box under a key. -/
def addBox (m : AnnIndex) (name : String) (b : BBox) : AnnIndex :=
  match m with
  | [] => [(name, [b])]
  | (k, v) :: rest =>
    if k = name then (k, v ++ [b]) :: rest
    else (k, v) :: addBox rest name b

/-- Line 100: `bboxes.get(key, [])`. -/
def lookupBoxes (m : AnnIndex) (name : String) : List BBox :=
  match m.lookup name with
  | some v => v
  | none => []

/-- The label-file loop of lines 74-86: process the lines in order, building
the index; a `ValueError` from a numeric conversion aborts the loop. -/
def buildIndex : List String → AnnIndex → Except Unit AnnIndex
  | [], m => .ok m
  | l :: ls, m =>
    match parseLine l with
    | .skipped => buildIndex ls m
    | .box n b => buildIndex ls (addBox m n b)
    | .err => .error ()

/-- One archive entry: its name plus its payload viewed as text lines
(image payloads are opaque to the pipeline and only fed to the decoder). -/
structure ZipEntry where
  filename : String
  lines : List String
deriving DecidableEq

/-- Python `suffix-str.endswith` on an entry name (code-unit exact match). -/
def endsWithPy (s suf : String) : Bool :=
  suf.data.isSuffixOf s.data

/-- Line 95: `filename.endswith(('.png', '.jpg', '.jpeg'))`. -/
def isImageName (s : String) : Bool :=
  endsWithPy s ".png" || endsWithPy s ".jpg" || endsWithPy s ".jpeg"

/-- Helper for `baseName`: keep the characters after the last slash. -/
def baseNameAux : List Char → List Char → List Char
  | [], acc => acc.reverse
  | c :: cs, acc => if c = '/' then baseNameAux cs [] else baseNameAux cs (c :: acc)

/-- Line 100: `filename.split('/')[-1]`, the last path segment. -/
def baseName (s : String) : String :=
  String.mk (baseNameAux s.data [])

/-- One serialized record (lines 45-54): the re-encoded image bytes handle
plus the five feature lists. -/
structure TFRec where
  image : Nat
  xmins : List Rat
  xmaxs : List Rat
  ymins : List Rat
  ymaxs : List Rat
  labels : List Int
deriving DecidableEq

/-- Lines 33-54 of the source, with the JPEG re-encoding abstracted into the
`img` handle: build the five parallel lists from the boxes and assemble the
record. -/
def image_to_tfrecord (img : Nat) (bboxes : List BBox) : TFRec :=
  { image := img
  , xmins := bboxes.map (fun b => b.xmin)
  , xmaxs := bboxes.map (fun b => b.xmax)
  , ymins := bboxes.map (fun b => b.ymin)
  , ymaxs := bboxes.map (fun b => b.ymax)
  , labels := bboxes.map (fun b => b.label) }

/-- Lines 70-72: first archive entry whose name ends with `location.txt`. -/
def findLoc (entries : List ZipEntry) : Option ZipEntry :=
  entries.find? (fun e => endsWithPy e.filename "location.txt")

/-- The image loop of lines 94-104: for each entry with an image suffix,
decode it (a decoder failure is a raised exception, modelled as `.error`
carrying the records already written to the local file), look up its base
filename, encode, and append the record. -/
def writeLoop (decode : List String → Option Nat) (idx : AnnIndex) :
    List ZipEntry → List TFRec → Except (List TFRec) (List TFRec)
  | [], written => .ok written
  | e :: rest, written =>
    if isImageName e.filename then
      match decode e.lines with
      | none => .error written
      | some img =>
        writeLoop decode idx rest
          (written ++ [image_to_tfrecord img (lookupBoxes idx (baseName e.filename))])
    else
      writeLoop decode idx rest written

/-- Observable outcome of one run of `process_images_to_tfrecord` plus the
process exit: the exit code (2 via `sys.exit(2)` in the handler at lines
108-110, otherwise 0 on normal return), the records written to the local
output file, whether the upload at line 107 happened, and whether an error
was logged. -/
structure RunOutcome where
  exitCode : Nat
  written : List TFRec
  uploaded : Bool
  errorLogged : Bool
deriving DecidableEq

/-- Lines 56-110 of the source. `decode` stands for `PIL.Image.open` plus the
JPEG re-encode (failure = exception), `uploadOk` for whether
`s3.upload_file` succeeds, `entries` for the downloaded archive's listing.
If no entry name ends with `location.txt`, the function logs an error and
returns (lines 89-91), so the process later exits normally with code 0;
any exception instead reaches the handler and exits with code 2. -/
def process_images_to_tfrecord (decode : List String → Option Nat)
    (uploadOk : Bool) (entries : List ZipEntry) : RunOutcome :=
  match findLoc entries with
  | none => ⟨0, [], false, true⟩
  | some loc =>
    match buildIndex loc.lines [] with
    | .error _ => ⟨2, [], false, true⟩
    | .ok idx =>
      match writeLoop decode idx entries [] with
      | .error w => ⟨2, w, false, true⟩
      | .ok recs =>
        if uploadOk then ⟨0, recs, true, false⟩
        else ⟨2, recs, false, true⟩

/-- Record produced for one archive entry by the image loop, if any:
`none` for entries without an image suffix, otherwise the encoded record
(or `none` propagated from a decoder failure). -/
def recOf (decode : List String → Option Nat) (idx : AnnIndex) (p : ZipEntry) : Option TFRec :=
  if isImageName p.filename then
    (decode p.lines).map (fun img => image_to_tfrecord img (lookupBoxes idx (baseName p.filename)))
  else none

lemma writeLoop_nil (decode : List String → Option Nat) (idx : AnnIndex) (acc : List TFRec) :
    writeLoop decode idx [] acc = .ok acc := rfl

lemma writeLoop_ok_append (decode : List String → Option Nat) (idx : AnnIndex) :
    ∀ (pre rest : List ZipEntry) (acc : List TFRec),
      (∀ p ∈ pre, isImageName p.filename = true → (decode p.lines).isSome = true) →
      writeLoop decode idx (pre ++ rest) acc =
        writeLoop decode idx rest (acc ++ pre.filterMap (recOf decode idx))
  | [], rest, acc, _ => by simp
  | p :: pre, rest, acc, h => by
    by_cases himg : isImageName p.filename = true
    · have hs : (decode p.lines).isSome = true := h p (by simp) himg
      obtain ⟨img, himg2⟩ := Option.isSome_iff_exists.mp hs
      have ih := writeLoop_ok_append decode idx pre rest
        (acc ++ [image_to_tfrecord img (lookupBoxes idx (baseName p.filename))])
        (fun q hq => h q (by simp [hq]))
      simp only [List.cons_append, writeLoop, himg, if_true, himg2, List.append_eq]
      rw [ih]
      simp [recOf, himg, himg2]
    · have ih := writeLoop_ok_append decode idx pre rest acc
        (fun q hq => h q (by simp [hq]))
      simp only [List.cons_append, writeLoop, himg, List.append_eq, Bool.false_eq_true,
        if_false]
      rw [ih]
      simp [recOf, himg]

lemma filterMap_recOf_total (decode : List String → Option Nat) (d : List String → Nat)
    (hdec : ∀ ls, decode ls = some (d ls)) (idx : AnnIndex) :
    ∀ es : List ZipEntry,
      es.filterMap (recOf decode idx) =
        (es.filter fun e => isImageName e.filename).map
          (fun e => image_to_tfrecord (d e.lines) (lookupBoxes idx (baseName e.filename)))
  | [] => by simp
  | e :: es => by
    by_cases himg : isImageName e.filename = true
    · simp [recOf, himg, hdec, filterMap_recOf_total decode d hdec idx es]
    · simp [recOf, himg, filterMap_recOf_total decode d hdec idx es]

lemma writeLoop_eq_ok (decode : List String → Option Nat) (d : List String → Nat)
    (hdec : ∀ ls, decode ls = some (d ls)) (idx : AnnIndex) (entries : List ZipEntry) :
    writeLoop decode idx entries [] =
      .ok ((entries.filter fun e => isImageName e.filename).map
        (fun e => image_to_tfrecord (d e.lines) (lookupBoxes idx (baseName e.filename)))) := by
  have h := writeLoop_ok_append decode idx entries [] []
    (fun p _ hp => by rw [hdec p.lines]; rfl)
  rw [List.append_nil] at h
  rw [h, writeLoop_nil, List.nil_append,
    filterMap_recOf_total decode d hdec idx entries]

/-- Master characterization of a fully successful run: when a label
resource is found, its lines all parse or skip, every image decodes,
and the upload succeeds, the run exits 0 and writes exactly one record
per image-suffixed entry, in listing order. -/
lemma process_total_eq (decode : List String → Option Nat) (d : List String → Nat)
    (hdec : ∀ ls, decode ls = some (d ls))
    (entries : List ZipEntry) (loc : ZipEntry) (idx : AnnIndex)
    (hloc : findLoc entries = some loc)
    (hidx : buildIndex loc.lines [] = .ok idx) :
    process_images_to_tfrecord decode true entries =
      ⟨0, (entries.filter fun e => isImageName e.filename).map
        (fun e => image_to_tfrecord (d e.lines) (lookupBoxes idx (baseName e.filename))),
        true, false⟩ := by
  unfold process_images_to_tfrecord
  simp only [hloc, hidx, writeLoop_eq_ok decode d hdec, if_true]

lemma buildIndex_err_of_mem (line : String) (herr : parseLine line = .err) :
    ∀ (lines : List String), line ∈ lines → ∀ m : AnnIndex,
      buildIndex lines m = .error ()
  | [], hmem => by simp at hmem
  | l :: ls, hmem => by
    intro m
    rcases List.mem_cons.mp hmem with hl | hl
    · subst hl
      simp [buildIndex, herr]
    · cases hp : parseLine l with
      | skipped => simp [buildIndex, hp, buildIndex_err_of_mem line herr ls hl]
      | box n b => simp [buildIndex, hp, buildIndex_err_of_mem line herr ls hl]
      | err => simp [buildIndex, hp]

lemma mem_addBox (k : String) (bs : List BBox) :
    ∀ (m : AnnIndex) (n : String) (b : BBox),
      (k, bs) ∈ addBox m n b → k = n ∨ ∃ bs0, (k, bs0) ∈ m
  | [], n, b => by
    intro h
    simp [addBox] at h
    exact Or.inl h.1
  | (k0, v0) :: rest, n, b => by
    intro h
    by_cases hk : k0 = n
    · subst hk
      simp [addBox] at h
      rcases h with ⟨hk, _⟩ | hmem
      · exact Or.inl hk
      · exact Or.inr ⟨bs, List.mem_cons_of_mem _ hmem⟩
    · rw [addBox, if_neg hk] at h
      rcases List.mem_cons.mp h with hl | hl
      · simp only [Prod.mk.injEq] at hl
        exact Or.inr ⟨v0, by simp [hl.1]⟩
      · rcases mem_addBox k bs rest n b hl with h1 | ⟨bs0, h2⟩
        · exact Or.inl h1
        · exact Or.inr ⟨bs0, List.mem_cons_of_mem _ h2⟩

lemma buildIndex_keys :
    ∀ (lines : List String) (m idx : AnnIndex), buildIndex lines m = .ok idx →
      ∀ k bs, (k, bs) ∈ idx →
        (∃ bs0, (k, bs0) ∈ m) ∨ ∃ line, line ∈ lines ∧ ∃ b, parseLine line = .box k b
  | [], m, idx => by
    intro h k bs hmem
    simp [buildIndex] at h
    subst h
    exact Or.inl ⟨bs, hmem⟩
  | l :: ls, m, idx => by
    intro h k bs hmem
    cases hp : parseLine l with
    | skipped =>
      rw [buildIndex, hp] at h
      rcases buildIndex_keys ls m idx h k bs hmem with h1 | ⟨line, hl1, hl2⟩
      · exact Or.inl h1
      · exact Or.inr ⟨line, List.mem_cons_of_mem _ hl1, hl2⟩
    | box n b =>
      rw [buildIndex, hp] at h
      rcases buildIndex_keys ls (addBox m n b) idx h k bs hmem with ⟨bs0, h1⟩ | ⟨line, hl1, hl2⟩
      · rcases mem_addBox k bs0 m n b h1 with hk | h2
        · exact Or.inr ⟨l, by simp, b, by rw [hp, hk]⟩
        · exact Or.inl h2
      · exact Or.inr ⟨line, List.mem_cons_of_mem _ hl1, hl2⟩
    | err => rw [buildIndex, hp] at h; exact absurd h (by simp)

/-- C1 (counterexample): for an archive whose only entry is `a.jpg` — so no
entry name ends with `location.txt` — the run logs the error, writes zero
records and attempts no upload, but the function just returns, so the
process exit code is 0 and not the claimed 2. -/
theorem C1_counterexample :
    (process_images_to_tfrecord (fun _ => some 0) true [⟨"a.jpg", []⟩]).errorLogged = true ∧
    (process_images_to_tfrecord (fun _ => some 0) true [⟨"a.jpg", []⟩]).written = [] ∧
    (process_images_to_tfrecord (fun _ => some 0) true [⟨"a.jpg", []⟩]).uploaded = false ∧
    ¬ (process_images_to_tfrecord (fun _ => some 0) true [⟨"a.jpg", []⟩]).exitCode = 2 := by
  with_unfolding_all decide

/-- C1 (amended): if no archive entry's name ends with `location.txt`, the
pipeline reports the error, writes zero records and attempts no upload, but
the function returns normally, so the process terminates with exit code 0
(success), not exit code 2. -/
theorem C1_missing_loc (decode : List String → Option Nat) (u : Bool)
    (entries : List ZipEntry)
    (h : ∀ e ∈ entries, endsWithPy e.filename "location.txt" = false) :
    process_images_to_tfrecord decode u entries = ⟨0, [], false, true⟩ := by
  have hf : findLoc entries = none := by
    apply List.find?_eq_none.mpr
    intro e he
    simp [h e he]
  unfold process_images_to_tfrecord
  rw [hf]

/-- C1 (witness): the amended statement applied to the archive `[b.jpg]`. -/
theorem C1_witness :
    (∀ e ∈ ([⟨"b.jpg", []⟩] : List ZipEntry), endsWithPy e.filename "location.txt" = false) ∧
    process_images_to_tfrecord (fun _ => some 0) false [⟨"b.jpg", []⟩] = ⟨0, [], false, true⟩ :=
  ⟨by with_unfolding_all decide,
   C1_missing_loc (fun _ => some 0) false [⟨"b.jpg", []⟩] (by with_unfolding_all decide)⟩

/-- C2: on the image pass, exactly the entries whose names end in `.png`,
`.jpg`, or `.jpeg` produce a record, one per such entry, appended in archive
listing order; each record encodes the decoded entry with the boxes looked
up under its base filename. -/
theorem C2_image_pass (decode : List String → Option Nat) (d : List String → Nat)
    (hdec : ∀ ls, decode ls = some (d ls))
    (entries : List ZipEntry) (loc : ZipEntry) (idx : AnnIndex)
    (hloc : findLoc entries = some loc)
    (hidx : buildIndex loc.lines [] = .ok idx) :
    process_images_to_tfrecord decode true entries =
      ⟨0, (entries.filter fun e => isImageName e.filename).map
        (fun e => image_to_tfrecord (d e.lines) (lookupBoxes idx (baseName e.filename))),
        true, false⟩ :=
  process_total_eq decode d hdec entries loc idx hloc hidx

/-- C2 (witness): the archive `a.jpg`, `b.jpg`, `location.txt` annotating
only `a.jpg` yields exactly 2 records in listing order, the second with
empty coordinate and label lists. -/
theorem C2_witness :
    process_images_to_tfrecord (fun _ => some 7) true
      [⟨"a.jpg", ["raw"]⟩, ⟨"b.jpg", ["raw"]⟩, ⟨"location.txt", ["a.jpg 3 10 20 5 8"]⟩] =
      ⟨0, [⟨7, [10], [15], [20], [28], [3]⟩, ⟨7, [], [], [], [], []⟩], true, false⟩ := by
  have h := C2_image_pass (fun _ => some 7) (fun _ => 7) (fun _ => rfl)
    [⟨"a.jpg", ["raw"]⟩, ⟨"b.jpg", ["raw"]⟩, ⟨"location.txt", ["a.jpg 3 10 20 5 8"]⟩]
    ⟨"location.txt", ["a.jpg 3 10 20 5 8"]⟩ [("a.jpg", [⟨10, 20, 15, 28, 3⟩])]
    (by with_unfolding_all rfl) (by with_unfolding_all rfl)
  rw [h]
  with_unfolding_all rfl

/-- C3: a label line splitting into exactly 6 tokens whose numeric fields
convert yields one box with xmin = x, ymin = y, xmax = x + width,
ymax = y + height and label the integer class id. -/
theorem C3_box_fields (line n cid x y w ht : String) (qx qy qw qh : Rat) (c : Int)
    (hsplit : pySplit (pyStrip line) = [n, cid, x, y, w, ht])
    (hx : pyFloat x = some qx) (hy : pyFloat y = some qy)
    (hw : pyFloat w = some qw) (hh : pyFloat ht = some qh)
    (hc : pyInt cid = some c) :
    parseLine line = .box n ⟨qx, qy, qx + qw, qy + qh, c⟩ := by
  simp [parseLine, hsplit, hx, hy, hw, hh, hc]

/-- C3 (witness): the line img1.jpg 3 10 20 5 8 yields the box with
xmin 10, ymin 20, xmax 15, ymax 28 and label 3. -/
theorem C3_witness :
    parseLine "img1.jpg 3 10 20 5 8" = .box "img1.jpg" ⟨10, 20, 15, 28, 3⟩ := by
  have h := C3_box_fields "img1.jpg 3 10 20 5 8" "img1.jpg" "3" "10" "20" "5" "8"
    10 20 5 8 3 (by with_unfolding_all rfl) (by with_unfolding_all rfl)
    (by with_unfolding_all rfl) (by with_unfolding_all rfl) (by with_unfolding_all rfl)
    (by with_unfolding_all rfl)
  rw [h]
  with_unfolding_all rfl

/-- C4: a label line whose whitespace split has any token count other than 6
is silently discarded — the parser yields no box and building the index from
the remaining lines proceeds unaffected, with no error raised. -/
theorem C4_skip_line (line : String) (lines : List String) (m : AnnIndex)
    (h : (pySplit (pyStrip line)).length ≠ 6) :
    parseLine line = .skipped ∧ buildIndex (line :: lines) m = buildIndex lines m := by
  have hp : parseLine line = .skipped := by
    simp only [parseLine]
    rw [dif_neg h]
  exact ⟨hp, by simp [buildIndex, hp]⟩

/-- C4 (witness): the 5-token line img1.jpg 3 10 20 5 is skipped and leaves
the index construction unchanged. -/
theorem C4_witness :
    (pySplit (pyStrip "img1.jpg 3 10 20 5")).length ≠ 6 ∧
    (parseLine "img1.jpg 3 10 20 5" = .skipped ∧
      buildIndex ["img1.jpg 3 10 20 5"] [] = buildIndex [] []) :=
  ⟨by with_unfolding_all decide,
   C4_skip_line "img1.jpg 3 10 20 5" [] [] (by with_unfolding_all decide)⟩

/-- C5: for every input box list, the record built by the encoder has its
five lists of equal length `boxes.length`, and position i of every list is
the corresponding field of box i, so index i of every list refers to the
same bounding box. -/
theorem C5_parallel_lists (img : Nat) (boxes : List BBox) :
    ((image_to_tfrecord img boxes).xmins.length = boxes.length ∧
      (image_to_tfrecord img boxes).xmaxs.length = boxes.length ∧
      (image_to_tfrecord img boxes).ymins.length = boxes.length ∧
      (image_to_tfrecord img boxes).ymaxs.length = boxes.length ∧
      (image_to_tfrecord img boxes).labels.length = boxes.length) ∧
    ∀ i : Nat,
      (image_to_tfrecord img boxes).xmins[i]? = (boxes[i]?).map (fun b => b.xmin) ∧
      (image_to_tfrecord img boxes).xmaxs[i]? = (boxes[i]?).map (fun b => b.xmax) ∧
      (image_to_tfrecord img boxes).ymins[i]? = (boxes[i]?).map (fun b => b.ymin) ∧
      (image_to_tfrecord img boxes).ymaxs[i]? = (boxes[i]?).map (fun b => b.ymax) ∧
      (image_to_tfrecord img boxes).labels[i]? = (boxes[i]?).map (fun b => b.label) := by
  refine ⟨⟨?_, ?_, ?_, ?_, ?_⟩, fun i => ⟨?_, ?_, ?_, ?_, ?_⟩⟩ <;>
    simp [image_to_tfrecord, List.getElem?_map]

/-- C6: an image entry whose base filename is absent from the index still
produces a record, with all four coordinate lists and the label list empty;
the record is present in the output and the run succeeds. -/
theorem C6_absent_image (decode : List String → Option Nat) (d : List String → Nat)
    (hdec : ∀ ls, decode ls = some (d ls))
    (entries : List ZipEntry) (loc : ZipEntry) (idx : AnnIndex) (e : ZipEntry)
    (hloc : findLoc entries = some loc)
    (hidx : buildIndex loc.lines [] = .ok idx)
    (he : e ∈ entries) (himg : isImageName e.filename = true)
    (habs : idx.lookup (baseName e.filename) = none) :
    (process_images_to_tfrecord decode true entries).exitCode = 0 ∧
    image_to_tfrecord (d e.lines) [] ∈ (process_images_to_tfrecord decode true entries).written ∧
    (image_to_tfrecord (d e.lines) []).xmins = [] ∧
    (image_to_tfrecord (d e.lines) []).xmaxs = [] ∧
    (image_to_tfrecord (d e.lines) []).ymins = [] ∧
    (image_to_tfrecord (d e.lines) []).ymaxs = [] ∧
    (image_to_tfrecord (d e.lines) []).labels = [] := by
  have hmain := process_total_eq decode d hdec entries loc idx hloc hidx
  rw [hmain]
  have hbx : lookupBoxes idx (baseName e.filename) = [] := by
    unfold lookupBoxes
    rw [habs]
  refine ⟨rfl, ?_, rfl, rfl, rfl, rfl, rfl⟩
  have hef : e ∈ entries.filter fun e => isImageName e.filename :=
    List.mem_filter.mpr ⟨he, himg⟩
  have hm : image_to_tfrecord (d e.lines) (lookupBoxes idx (baseName e.filename)) ∈
      List.map (fun e => image_to_tfrecord (d e.lines) (lookupBoxes idx (baseName e.filename)))
        (List.filter (fun e => isImageName e.filename) entries) :=
    List.mem_map_of_mem _ hef
  rw [hbx] at hm
  exact hm

/-- C6 (witness): in an archive annotating only `a.jpg`, the unannotated
`b.jpg` still yields a record with empty lists, present in the output. -/
theorem C6_witness :
    (process_images_to_tfrecord (fun _ => some 7) true
      [⟨"location.txt", ["a.jpg 3 10 20 5 8"]⟩, ⟨"b.jpg", []⟩]).exitCode = 0 ∧
    image_to_tfrecord 7 [] ∈ (process_images_to_tfrecord (fun _ => some 7) true
      [⟨"location.txt", ["a.jpg 3 10 20 5 8"]⟩, ⟨"b.jpg", []⟩]).written ∧
    (image_to_tfrecord 7 []).xmins = [] ∧
    (image_to_tfrecord 7 []).xmaxs = [] ∧
    (image_to_tfrecord 7 []).ymins = [] ∧
    (image_to_tfrecord 7 []).ymaxs = [] ∧
    (image_to_tfrecord 7 []).labels = [] :=
  C6_absent_image (fun _ => some 7) (fun _ => 7) (fun _ => rfl)
    [⟨"location.txt", ["a.jpg 3 10 20 5 8"]⟩, ⟨"b.jpg", []⟩]
    ⟨"location.txt", ["a.jpg 3 10 20 5 8"]⟩ [("a.jpg", [⟨10, 20, 15, 28, 3⟩])]
    ⟨"b.jpg", []⟩ (by with_unfolding_all rfl) (by with_unfolding_all rfl)
    (by simp) (by with_unfolding_all rfl) (by with_unfolding_all rfl)

/-- C7: a decoder exception on any image entry aborts the whole run with
exit code 2 and no upload; only records from entries before the bad image
were written, and nothing after it is processed — no per-image isolation. -/
theorem C7_abort_on_bad_image (decode : List String → Option Nat) (u : Bool)
    (entries pre post : List ZipEntry) (e loc : ZipEntry) (idx : AnnIndex)
    (hsplit : entries = pre ++ e :: post)
    (hloc : findLoc entries = some loc)
    (hidx : buildIndex loc.lines [] = .ok idx)
    (hpre : ∀ p ∈ pre, isImageName p.filename = true → (decode p.lines).isSome = true)
    (himg : isImageName e.filename = true)
    (hbad : decode e.lines = none) :
    process_images_to_tfrecord decode u entries =
      ⟨2, pre.filterMap (recOf decode idx), false, true⟩ := by
  have hw : writeLoop decode idx entries [] = .error (pre.filterMap (recOf decode idx)) := by
    rw [hsplit, writeLoop_ok_append decode idx pre (e :: post) [] hpre, List.nil_append]
    simp [writeLoop, himg, hbad]
  unfold process_images_to_tfrecord
  simp only [hloc, hidx, hw]

/-- C7 (witness): a bad third entry aborts the batch with exit 2, no upload,
and only the one record preceding it written; the good image after the bad
one yields nothing. -/
theorem C7_witness :
    process_images_to_tfrecord (fun ls => if ls = ["bad"] then none else some 7) true
      [⟨"location.txt", ["hdr"]⟩, ⟨"a.jpg", ["good"]⟩, ⟨"bad.jpg", ["bad"]⟩,
        ⟨"c.jpg", ["good"]⟩] =
      ⟨2, [⟨7, [], [], [], [], []⟩], false, true⟩ := by
  have h := C7_abort_on_bad_image (fun ls => if ls = ["bad"] then none else some 7) true
    [⟨"location.txt", ["hdr"]⟩, ⟨"a.jpg", ["good"]⟩, ⟨"bad.jpg", ["bad"]⟩, ⟨"c.jpg", ["good"]⟩]
    [⟨"location.txt", ["hdr"]⟩, ⟨"a.jpg", ["good"]⟩] [⟨"c.jpg", ["good"]⟩]
    ⟨"bad.jpg", ["bad"]⟩ ⟨"location.txt", ["hdr"]⟩ []
    rfl (by with_unfolding_all rfl) (by with_unfolding_all rfl)
    (by with_unfolding_all decide) (by with_unfolding_all rfl) (by with_unfolding_all rfl)
  rw [h]
  with_unfolding_all rfl

/-- C8 (counterexample): the accepted line dir/a.jpg 3 10 20 5 8 keys its
box under the raw token `dir/a.jpg`, which contains a directory separator,
and the archive image `dir/a.jpg` (base filename `a.jpg`) retrieves nothing:
its record has empty lists, contrary to the claim. -/
theorem C8_counterexample :
    buildIndex ["dir/a.jpg 3 10 20 5 8"] [] =
      .ok [("dir/a.jpg", [⟨10, 20, 15, 28, 3⟩])] ∧
    '/' ∈ "dir/a.jpg".data ∧
    (process_images_to_tfrecord (fun _ => some 7) true
      [⟨"location.txt", ["dir/a.jpg 3 10 20 5 8"]⟩, ⟨"dir/a.jpg", []⟩]).written =
      [⟨7, [], [], [], [], []⟩] := by
  refine ⟨by with_unfolding_all rfl, by decide, by with_unfolding_all rfl⟩

/-- C8 (amended): the index keys are the raw image-name tokens of accepted
lines (which may contain directory components), and each image entry's
record is built from the boxes found under the last path segment of its
entry name, so an accepted line's boxes reach exactly the images whose base
filename equals the raw token. -/
theorem C8_lookup_by_base (decode : List String → Option Nat) (d : List String → Nat)
    (hdec : ∀ ls, decode ls = some (d ls))
    (entries : List ZipEntry) (loc : ZipEntry) (idx : AnnIndex) (e : ZipEntry)
    (hloc : findLoc entries = some loc)
    (hidx : buildIndex loc.lines [] = .ok idx)
    (he : e ∈ entries) (himg : isImageName e.filename = true) :
    image_to_tfrecord (d e.lines) (lookupBoxes idx (baseName e.filename)) ∈
      (process_images_to_tfrecord decode true entries).written ∧
    ∀ k bs, (k, bs) ∈ idx → ∃ line, line ∈ loc.lines ∧ ∃ b, parseLine line = .box k b := by
  constructor
  · rw [process_total_eq decode d hdec entries loc idx hloc hidx]
    exact List.mem_map_of_mem _ (List.mem_filter.mpr ⟨he, himg⟩)
  · intro k bs hmem
    rcases buildIndex_keys loc.lines [] idx hidx k bs hmem with ⟨bs0, h0⟩ | h1
    · simp at h0
    · exact h1

/-- C8 (witness): with the token `a.jpg` and the nested image `dir/a.jpg`,
whose base filename is `a.jpg`, the image's record receives the line's box,
and the only index key is the raw token of the accepted line. -/
theorem C8_witness :
    image_to_tfrecord 7
        (lookupBoxes [("a.jpg", [⟨10, 20, 15, 28, 3⟩])] (baseName "dir/a.jpg")) ∈
      (process_images_to_tfrecord (fun _ => some 7) true
        [⟨"location.txt", ["a.jpg 3 10 20 5 8"]⟩, ⟨"dir/a.jpg", []⟩]).written ∧
    ∀ k bs, (k, bs) ∈ ([("a.jpg", [⟨10, 20, 15, 28, 3⟩])] : AnnIndex) →
      ∃ line, line ∈ ["a.jpg 3 10 20 5 8"] ∧ ∃ b, parseLine line = .box k b :=
  C8_lookup_by_base (fun _ => some 7) (fun _ => 7) (fun _ => rfl)
    [⟨"location.txt", ["a.jpg 3 10 20 5 8"]⟩, ⟨"dir/a.jpg", []⟩]
    ⟨"location.txt", ["a.jpg 3 10 20 5 8"]⟩ [("a.jpg", [⟨10, 20, 15, 28, 3⟩])]
    ⟨"dir/a.jpg", []⟩ (by with_unfolding_all rfl) (by with_unfolding_all rfl)
    (by simp) (by with_unfolding_all rfl)

/-- C9: the run is a deterministic function of the archive listing — two
runs over equal archives (same decoder, same upload behaviour) produce
equal outcomes and byte-for-byte identical written output. -/
theorem C9_deterministic (decode : List String → Option Nat) (u : Bool)
    (entries1 entries2 : List ZipEntry) (h : entries1 = entries2) :
    process_images_to_tfrecord decode u entries1 = process_images_to_tfrecord decode u entries2 ∧
    (process_images_to_tfrecord decode u entries1).written =
      (process_images_to_tfrecord decode u entries2).written := by
  subst h
  exact ⟨rfl, rfl⟩

/-- C9 (witness): two runs on the same concrete archive coincide. -/
theorem C9_witness :
    process_images_to_tfrecord (fun _ => some 7) true
        [⟨"location.txt", ["a.jpg 3 10 20 5 8"]⟩, ⟨"a.jpg", []⟩] =
      process_images_to_tfrecord (fun _ => some 7) true
        [⟨"location.txt", ["a.jpg 3 10 20 5 8"]⟩, ⟨"a.jpg", []⟩] ∧
    (process_images_to_tfrecord (fun _ => some 7) true
        [⟨"location.txt", ["a.jpg 3 10 20 5 8"]⟩, ⟨"a.jpg", []⟩]).written =
      (process_images_to_tfrecord (fun _ => some 7) true
        [⟨"location.txt", ["a.jpg 3 10 20 5 8"]⟩, ⟨"a.jpg", []⟩]).written :=
  C9_deterministic (fun _ => some 7) true
    [⟨"location.txt", ["a.jpg 3 10 20 5 8"]⟩, ⟨"a.jpg", []⟩]
    [⟨"location.txt", ["a.jpg 3 10 20 5 8"]⟩, ⟨"a.jpg", []⟩] rfl

/-- C10: a 6-token label line whose numeric fields do not convert is not
silently skipped: the conversion raises, the exception escapes the loop and
the whole run aborts with exit code 2, nothing written and no upload. -/
theorem C10_malformed_numeric (line n cid x y w ht : String)
    (decode : List String → Option Nat) (u : Bool)
    (entries : List ZipEntry) (loc : ZipEntry)
    (hsplit : pySplit (pyStrip line) = [n, cid, x, y, w, ht])
    (hbad : pyFloat x = none ∨ pyFloat y = none ∨ pyFloat w = none ∨
      pyFloat ht = none ∨ pyInt cid = none)
    (hloc : findLoc entries = some loc) (hmem : line ∈ loc.lines) :
    parseLine line = .err ∧
    process_images_to_tfrecord decode u entries = ⟨2, [], false, true⟩ := by
  have herr : parseLine line = .err := by
    have h6 : parseLine line =
        (match pyFloat x, pyFloat y, pyFloat w, pyFloat ht, pyInt cid with
          | some qx, some qy, some qw, some qh, some c =>
            LineResult.box n ⟨qx, qy, qx + qw, qy + qh, c⟩
          | _, _, _, _, _ => LineResult.err) := by
      simp [parseLine, hsplit]
    rw [h6]
    split
    · rcases hbad with hb | hb | hb | hb | hb <;> simp_all
    · rfl
  refine ⟨herr, ?_⟩
  have hidx := buildIndex_err_of_mem line herr loc.lines hmem []
  unfold process_images_to_tfrecord
  simp only [hloc, hidx]

/-- C10 (witness): the line img1.jpg abc 10 20 5 8 — 6 tokens with a
non-integer class id — raises, and the run aborts with exit code 2. -/
theorem C10_witness :
    parseLine "img1.jpg abc 10 20 5 8" = .err ∧
    process_images_to_tfrecord (fun _ => some 7) true
      [⟨"location.txt", ["img1.jpg abc 10 20 5 8"]⟩, ⟨"a.jpg", []⟩] = ⟨2, [], false, true⟩ :=
  C10_malformed_numeric "img1.jpg abc 10 20 5 8" "img1.jpg" "abc" "10" "20" "5" "8"
    (fun _ => some 7) true
    [⟨"location.txt", ["img1.jpg abc 10 20 5 8"]⟩, ⟨"a.jpg", []⟩]
    ⟨"location.txt", ["img1.jpg abc 10 20 5 8"]⟩
    (by with_unfolding_all rfl)
    (Or.inr (Or.inr (Or.inr (Or.inr (by with_unfolding_all rfl)))))
    (by with_unfolding_all rfl) (by simp)

end RawToTFRecord
